import Mathlib

/-!
Verification of the amazon-deals repository against its specification.

The repository's frontend (Next.js pages and the API client `lib/api.ts`)
and the orchestration script `backend/run_all.ps1` are embedded directly
from their sources. The backend ingestion pipeline (Statistics Engine,
Confidence Estimator, Score Composer, Snapshot Writer — Python under
`backend/app/`) is not part of the provided sources; those components are
modelled from the specification, and each such definition carries a doc
comment saying so.

Numbers are modelled as exact rationals `ℚ`; JavaScript `Math.round` is
modelled as floor of `x + 1/2` (round half toward positive infinity).
-/

namespace AmazonDeals

/-! ## Frontend API client (`lib/api.ts`, in `src/unnamed/part_002`) -/

/-- The two sort modes accepted by `fetchDeals` — TypeScript type
`"hot" | "deal"`. -/
inductive SortChoice where
  | hot
  | deal
deriving DecidableEq, Repr

def sortToString : SortChoice → String
  | .hot => "hot"
  | .deal => "deal"

/-- Query parameters assembled by `fetchDeals(category?, sort = "hot")`:
`limit=100`, `sort=<sort>`, and `category=<c>` only when `category` is
truthy in JavaScript (present and not the empty string). The TypeScript
default argument `sort = "hot"` is modelled as a Lean default argument. -/
def fetchDealsParams (category : Option String) (sort : SortChoice := .hot) :
    List (String × String) :=
  [("limit", "100"), ("sort", sortToString sort)] ++
    (match category with
     | some c => if c = "" then [] else [("category", c)]
     | none => [])

/-- Handling of the HTTP response in `fetchDeal`: on a non-ok status it
throws `Error("Failed to load deal")`, otherwise it returns the parsed
body. The body is abstract (`α`); throwing is modelled as `Except.error`. -/
def fetchDealResult (α : Type) (ok : Bool) (body : α) : Except String α :=
  if ok then Except.ok body else Except.error "Failed to load deal"

/-! ## Top page (`src/unnamed/part_001`) -/

/-- JavaScript `Math.round`: round half toward positive infinity. -/
def jsRound (q : ℚ) : ℤ := ⌊q + 1 / 2⌋

/-- Formatter `pct` from the top page: `"-"` for null/undefined,
otherwise `Math.round(x * 100)` followed by `%`. -/
def pct (x : Option ℚ) : String :=
  match x with
  | none => "-"
  | some v => toString (jsRound (v * 100)) ++ "%"

/-- The top page's sort resolution:
`searchParams?.sort === "deal" ? "deal" : "hot"`. `none` covers both a
missing `searchParams` and a missing `sort` key. -/
def pageResolveSort (s : Option String) : SortChoice :=
  if s = some "deal" then .deal else .hot

/-- The explanatory line the top page renders for each sort mode. -/
def sortBlurb : SortChoice → String
  | .hot => "Sorted by Hot Score (deal quality + demand)."
  | .deal => "Sorted by Deal Score (discount strength + price stability)."

/-! ## Deal detail page (`src/unnamed/part_002`) and category page
(`src/frontend/src/app/category/[slug]/page.tsx`): how null fields are
rendered. -/

/-- Detail page: `Math.round((d.discount_pct_90d ?? 0) * 100)`. -/
def dealPageDropPct (x : Option ℚ) : ℤ := jsRound (x.getD 0 * 100)

/-- Detail page: `(d.price_current ?? 0)` (value fed to `.toFixed(2)`). -/
def dealPageNow (x : Option ℚ) : ℚ := x.getD 0

/-- Detail page: `(d.price_median_90d ?? 0)` (value fed to `.toFixed(2)`). -/
def dealPageMedian (x : Option ℚ) : ℚ := x.getD 0

/-- Category page: `(d.price_current ?? 0)` (value fed to `.toFixed(2)`). -/
def categoryPageNow (x : Option ℚ) : ℚ := x.getD 0

/-- Category page: `Math.round((d.discount_pct_90d ?? 0) * 100)`. -/
def categoryPageDropPct (x : Option ℚ) : ℤ := jsRound (x.getD 0 * 100)

/-! ## Run script (`src/backend/run_all.ps1`) -/

/-- The two switches of `run_all.ps1`. -/
structure RunAllArgs where
  keepHistory : Bool
  noOpen : Bool
deriving DecidableEq, Repr

/-- The value `run_all.ps1` assigns to the `PURGE_DEALS_ON_START`
environment variable: `"0"` when `-KeepHistory` is passed, `"1"`
otherwise. -/
def purgeDealsOnStart (args : RunAllArgs) : String :=
  if args.keepHistory then "0" else "1"

/-! ## Statistics Engine (modelled from the spec) -/

/-- Statistical median of a list of prices: middle element of the sorted
list for odd length, mean of the two middle elements for even length,
`none` for the empty list. -/
def medianOfList (l : List ℚ) : Option ℚ :=
  let s := l.insertionSort (· ≤ ·)
  let n := l.length
  if n = 0 then none
  else if n % 2 = 1 then s.get? (n / 2)
  else
    match s.get? (n / 2 - 1), s.get? (n / 2) with
    | some a, some b => some ((a + b) / 2)
    | _, _ => none

/-- Trailing window length in days (spec §4.2: "trailing 90-day window"). -/
def windowDays : ℤ := 90

/-- Minimum number of in-window samples for the median to be defined
(spec §4.2: "a minimum sample count (e.g., 3)"). -/
def minSamples : ℕ := 3

/-- A price series: `(timestamp in days, price)` samples, timestamps
strictly increasing so the last sample is the latest. -/
abbrev PriceSeries := List (ℤ × ℚ)

/-- Samples of the series inside the trailing window ending at `now`. -/
def inWindow (now : ℤ) (series : PriceSeries) : PriceSeries :=
  series.filter (fun p => now - windowDays ≤ p.1 && p.1 ≤ now)

/-- Output of the Statistics Engine. -/
structure StatsOut where
  priceCurrent : Option ℚ
  priceMedian90d : Option ℚ
  discountPct90d : Option ℚ
deriving DecidableEq, Repr

/-- Modelled from the spec: the Statistics Engine (backend
`app/ingestion` code, not among the provided sources). `priceCurrent` is
the latest sample's price; `priceMedian90d` is the median of the samples
in the trailing 90-day window, `none` when fewer than `minSamples` are in
the window; `discountPct90d` is `(median − current)/median` clamped to at
most 1, `none` when the median is `none` or ≤ 0 (spec §4.2, §8). The
discount computation is split out as `discountFrom`. -/
def discountFrom (median current : Option ℚ) : Option ℚ :=
  match median, current with
  | some m, some c => if m ≤ 0 then none else some (min 1 ((m - c) / m))
  | _, _ => none

/-- Modelled from the spec: see `discountFrom` — the Statistics Engine's
full output for a series. -/
def computeStats (now : ℤ) (series : PriceSeries) : StatsOut :=
  let w := inWindow now series
  let current := series.getLast?.map Prod.snd
  let median :=
    if w.length < minSamples then none else medianOfList (w.map Prod.snd)
  ⟨current, median, discountFrom median current⟩

/-! ## Confidence Estimator (modelled from the spec) -/

/-- Floor value the confidence is forced to when the median is undefined
(spec §4.3). -/
def confFloor : ℚ := 5

/-- Saturation constant: sample-count contribution has diminishing
returns past this scale (spec §4.3). -/
def confSaturation : ℚ := 10

/-- Penalty applied when the latest sample is stale (spec §4.2, §4.3). -/
def stalePenalty : ℚ := 20

/-- Penalty for missing-data gaps, scaled by the gap fraction of the
window, clamped to `[0, 1]` (spec §4.3). -/
def gapPenalty (gapFraction : ℚ) : ℚ := 30 * max 0 (min 1 gapFraction)

/-- Modelled from the spec: the Confidence Estimator (backend code, not
among the provided sources). Confidence rises with sample count with
diminishing returns, falls with staleness and with gaps, is bounded in
`[confFloor, 100]`-ish, and is forced to `confFloor` when the median is
undefined (spec §4.3). -/
def confidence (medianDefined : Bool) (sampleCount : ℕ) (stale : Bool)
    (gapFraction : ℚ) : ℚ :=
  if medianDefined then
    max confFloor
      (100 * (sampleCount : ℚ) / ((sampleCount : ℚ) + confSaturation)
        - ((if stale then stalePenalty else 0) + gapPenalty gapFraction))
  else confFloor

/-! ## Score Composer (modelled from the spec) -/

/-- Floor score assigned when the discount is undefined (spec §4.5: the
score "must be defined (possibly at a floor value) even when
`discountPct90d` is undefined"). -/
def scoreFloorValue : ℚ := 0

/-- Weight of the demand score in the hot-score blend (spec §4.5:
"weighted-arithmetic blend"). -/
def hotDemandWeight : ℚ := 30

/-- Modelled from the spec: the deal score (backend code, not among the
provided sources). A weighted combination of discount and stability
scaled by confidence, which compresses the score toward the neutral
midpoint 50; `scoreFloorValue` when the discount is undefined (spec §4.5). -/
def dealScore (discount : Option ℚ) (stability : Option ℚ) (conf : ℚ) : ℚ :=
  match discount with
  | none => scoreFloorValue
  | some d =>
    let st := stability.getD (1 / 2)
    let raw := 100 * (7 / 10 * d + 3 / 10 * st)
    50 + conf / 100 * (raw - 50)

/-- Modelled from the spec: the Score Composer (backend code, not among
the provided sources). Returns `(score, hotScore)`: `hotScore` is `score`
blended with `demandScore` by a weighted arithmetic mean when the demand
score is present, and is `score` unchanged when it is `null` (spec §4.5). -/
def scoreCompose (discount : Option ℚ) (stability : Option ℚ) (conf : ℚ)
    (demandScore : Option ℚ) : ℚ × ℚ :=
  let score := dealScore discount stability conf
  let hot :=
    match demandScore with
    | none => score
    | some dm => (score * (100 - hotDemandWeight) + dm * hotDemandWeight) / 100
  (score, hot)

/-! ## Snapshot Writer (modelled from the spec)

The writer commits a cycle's records as one generation: mark every
previously-active record whose `(asin, category)` key is absent from the
new set inactive, then insert the new records active (spec §4.6). The
commit is modelled as a sequence of elementary writes applied under an
undo log; a failure injected after `k` writes rolls the log back. The
store readers observe is only ever the commit's result (spec §5: the
commit is a single transaction — readers never see an intermediate
state). -/

/-- A persisted deal record (spec §3 data model; value fields are
immutable, only `isActive` is flipped by the Snapshot Writer). -/
structure DealRecord where
  asin : String
  category : String
  title : Option String
  priceCurrent : Option ℚ
  priceMedian90d : Option ℚ
  discountPct90d : Option ℚ
  conf : ℚ
  score : ℚ
  hotScore : ℚ
  demandScore : Option ℚ
  isActive : Bool
deriving DecidableEq, Repr

/-- The durable store: the full list of persisted records. -/
abbrev Store := List DealRecord

/-- The `(asin, category)` correlation key (unique among active records). -/
def recordKey (r : DealRecord) : String × String := (r.asin, r.category)

/-- The records readers consider current. -/
def activeRecords (s : Store) : Store := s.filter (fun r => r.isActive)

/-- One elementary write of a commit: insert a record, or set the
`isActive` flag of the record at position `i`. -/
inductive CommitOp where
  | insert (r : DealRecord)
  | setActive (i : ℕ) (b : Bool)
deriving DecidableEq, Repr

/-- One entry of the undo log, holding the before-image needed to revert
the corresponding write. -/
inductive UndoOp where
  | removeHead
  | setActive (i : ℕ) (b : Bool)
  | skip
deriving DecidableEq, Repr

/-- Apply one elementary write to the store. -/
def applyOp (s : Store) : CommitOp → Store
  | .insert r => r :: s
  | .setActive i b =>
    match s[i]? with
    | some r => s.set i { r with isActive := b }
    | none => s

/-- Before-image undo entry for a write about to be applied to `s`. -/
def undoOf (s : Store) : CommitOp → UndoOp
  | .insert _ => .removeHead
  | .setActive i _ =>
    match s[i]? with
    | some r => .setActive i r.isActive
    | none => .skip

/-- Apply one undo entry to the store. -/
def applyUndo (s : Store) : UndoOp → Store
  | .removeHead => s.tail
  | .setActive i b =>
    match s[i]? with
    | some r => s.set i { r with isActive := b }
    | none => s
  | .skip => s

/-- Run a sequence of writes, returning the resulting store and the undo
log (undo of the most recent write first). -/
def runOps (s : Store) : List CommitOp → Store × List UndoOp
  | [] => (s, [])
  | op :: ops =>
    let rest := runOps (applyOp s op) ops
    (rest.1, rest.2 ++ [undoOf s op])

/-- Replay an undo log against the store. -/
def rollback (s : Store) (undos : List UndoOp) : Store :=
  undos.foldl applyUndo s

/-- Modelled from the spec: the writes of one commit (backend code, not
among the provided sources). First deactivate every active record whose
key is not in the new set, then insert the new records as active
(spec §4.6 insert-new / mark-old-inactive). -/
def commitOps (s : Store) (newRecs : List DealRecord) : List CommitOp :=
  let newKeys := newRecs.map recordKey
  let deact := (List.range s.length).filterMap (fun i =>
    match s[i]? with
    | some r =>
      if r.isActive = true ∧ recordKey r ∉ newKeys then
        some (CommitOp.setActive i false)
      else none
    | none => none)
  deact ++ newRecs.map (fun r => CommitOp.insert { r with isActive := true })

/-- The store after a fully successful commit of `newRecs` onto `s`. -/
def commitAll (s : Store) (newRecs : List DealRecord) : Store :=
  (runOps s (commitOps s newRecs)).1

/-- Modelled from the spec: the Snapshot Writer's atomic commit with
failure injection (backend code, not among the provided sources).
`failAfter = none` commits the whole cycle and reports success;
`failAfter = some k` fails after `k` elementary writes, rolls the undo
log back, and reports failure. The returned store is the only state
readers ever observe (spec §4.6, §5, §7 `CommitFailure`). -/
def commitWithFailure (s : Store) (newRecs : List DealRecord)
    (failAfter : Option ℕ) : Store × Bool :=
  let ops := commitOps s newRecs
  match failAfter with
  | none => ((runOps s ops).1, true)
  | some k =>
    let mid := runOps s (ops.take k)
    (rollback mid.1 mid.2, false)

/-! ## Rollback correctness -/

theorem list_set_of_getElem? {α : Type _} {l : List α} {i : ℕ} {a : α}
    (h : l[i]? = some a) : l.set i a = l := by
  induction l generalizing i with
  | nil => simp at h
  | cons x xs ih =>
    cases i with
    | zero =>
      simp only [List.getElem?_cons_zero, Option.some.injEq] at h
      rw [List.set_cons_zero, h]
    | succ n =>
      simp only [List.getElem?_cons_succ] at h
      rw [List.set_cons_succ, ih h]

theorem applyUndo_undoOf (s : Store) (op : CommitOp) :
    applyUndo (applyOp s op) (undoOf s op) = s := by
  cases op with
  | insert r => rfl
  | setActive i b =>
    cases hg : s[i]? with
    | none => simp [applyOp, undoOf, applyUndo, hg]
    | some r =>
      have hi : i < s.length := by
        by_contra hlt
        rw [List.getElem?_eq_none (by omega)] at hg
        exact Option.noConfusion hg
      obtain ⟨ra, rc, rt, rpc, rpm, rdp, rcf, rsc, rhs, rds, ria⟩ := r
      have hset : (s.set i ⟨ra, rc, rt, rpc, rpm, rdp, rcf, rsc, rhs, rds, b⟩)[i]?
          = some ⟨ra, rc, rt, rpc, rpm, rdp, rcf, rsc, rhs, rds, b⟩ :=
        List.getElem?_set_self (by simpa using hi)
      simp only [applyOp, undoOf, applyUndo, hg, hset]
      rw [List.set_set]
      exact list_set_of_getElem? hg

theorem rollback_runOps (ops : List CommitOp) :
    ∀ s : Store, rollback (runOps s ops).1 (runOps s ops).2 = s := by
  induction ops with
  | nil => intro _; rfl
  | cons op ops ih =>
    intro s
    simp only [runOps, rollback, List.foldl_append]
    have hmid := ih (applyOp s op)
    simp only [rollback] at hmid
    rw [hmid, List.foldl_cons, List.foldl_nil]
    exact applyUndo_undoOf s op

/-- C1: if the Snapshot Writer's atomic commit fails — at any injected
failure point `k` mid-commit — every write of the cycle is rolled back:
the resulting store, and in particular its set of active records, is
exactly the pre-cycle state, and the cycle is reported as failed.
Moreover the store readers observe is always either the pre-cycle state
or the fully committed new generation, never a partial one. -/
theorem commit_failure_rolls_back :
    ∀ (s : Store) (newRecs : List DealRecord) (k : ℕ),
      commitWithFailure s newRecs (some k) = (s, false) ∧
      activeRecords (commitWithFailure s newRecs (some k)).1 = activeRecords s ∧
      ∀ f : Option ℕ,
        (commitWithFailure s newRecs f).1 = s ∨
        (commitWithFailure s newRecs f).1 = commitAll s newRecs := by
  intro s newRecs k
  have hroll : ∀ k' : ℕ, commitWithFailure s newRecs (some k') = (s, false) := by
    intro k'
    simp only [commitWithFailure]
    rw [rollback_runOps ((commitOps s newRecs).take k') s]
  refine ⟨hroll k, by rw [hroll k], ?_⟩
  intro f
  cases f with
  | none => exact Or.inr rfl
  | some k' => exact Or.inl (by rw [hroll k'])

/-! ## Statistics Engine properties -/

theorem computeStats_median (now : ℤ) (series : PriceSeries) :
    (computeStats now series).priceMedian90d =
      if (inWindow now series).length < minSamples then none
      else medianOfList ((inWindow now series).map Prod.snd) := rfl

theorem computeStats_discount (now : ℤ) (series : PriceSeries) :
    (computeStats now series).discountPct90d =
      discountFrom (computeStats now series).priceMedian90d
        (computeStats now series).priceCurrent := rfl

/-- C2: for every computed record, `discountPct90d` is `none` whenever
`priceMedian90d` is `none` or ≤ 0, and otherwise equals
`(median − current) / median` exactly, clamped to at most 1 (negative
values are permitted since `min 1` only caps above). -/
theorem discountPct_spec :
    ∀ (now : ℤ) (series : PriceSeries),
      (((computeStats now series).priceMedian90d = none ∨
          ∃ m, (computeStats now series).priceMedian90d = some m ∧ m ≤ 0) →
        (computeStats now series).discountPct90d = none) ∧
      (∀ m c, (computeStats now series).priceMedian90d = some m →
        (computeStats now series).priceCurrent = some c → 0 < m →
        (computeStats now series).discountPct90d = some (min 1 ((m - c) / m))) := by
  intro now series
  constructor
  · intro h
    rw [computeStats_discount]
    rcases h with h | ⟨m, hm, hle⟩
    · rw [h]
      cases (computeStats now series).priceCurrent <;> rfl
    · rw [hm]
      cases (computeStats now series).priceCurrent with
      | none => rfl
      | some c => simp [discountFrom, hle]
  · intro m c hm hc hpos
    rw [computeStats_discount, hm, hc]
    simp [discountFrom, not_le.mpr hpos]

/-- Witness for `discountPct_spec`: the spec §8 scenario series
`[(t−90d, 100), (t−45d, 80), (t−1d, 60)]` at `now = t = 90` gives
discount `min 1 ((80 − 60)/80) = 1/4`, and the empty series gives `none`. -/
theorem discountPct_spec_witness :
    (computeStats 90 [((0 : ℤ), (100 : ℚ)), (45, 80), (89, 60)]).discountPct90d
        = some (min 1 ((80 - 60) / 80)) ∧
    (computeStats 90 ([] : PriceSeries)).discountPct90d = none :=
  ⟨(discountPct_spec 90 [((0 : ℤ), (100 : ℚ)), (45, 80), (89, 60)]).2 80 60
      (by decide) (by decide) (by norm_num),
   (discountPct_spec 90 ([] : PriceSeries)).1 (Or.inl (by decide))⟩

theorem medianOfList_perm {l l' : List ℚ} (h : l.Perm l') :
    medianOfList l = medianOfList l' := by
  have hlen : l.length = l'.length := h.length_eq
  have hsort : l.insertionSort (· ≤ ·) = l'.insertionSort (· ≤ ·) :=
    List.eq_of_perm_of_sorted
      ((List.perm_insertionSort _ l).trans
        (h.trans (List.perm_insertionSort _ l').symm))
      (List.sorted_insertionSort _ l) (List.sorted_insertionSort _ l')
  simp only [medianOfList, hlen, hsort]

/-- C3: for every series with at least 3 samples inside the trailing
window, the Statistics Engine's `priceMedian90d` is the statistical
median of the in-window samples, and it is unchanged under any
reordering (permutation) of the series. -/
theorem median_spec :
    ∀ (now : ℤ) (series : PriceSeries),
      3 ≤ (inWindow now series).length →
      (computeStats now series).priceMedian90d
          = medianOfList ((inWindow now series).map Prod.snd) ∧
      ∀ series' : PriceSeries, series'.Perm series →
        (computeStats now series').priceMedian90d
          = (computeStats now series).priceMedian90d := by
  intro now series h
  have h3 : ¬ (inWindow now series).length < minSamples := by
    unfold minSamples; omega
  constructor
  · rw [computeStats_median, if_neg h3]
  · intro series' hperm
    have hw : (inWindow now series').Perm (inWindow now series) :=
      hperm.filter _
    have hlen : (inWindow now series').length = (inWindow now series).length :=
      hw.length_eq
    rw [computeStats_median, computeStats_median, hlen,
      medianOfList_perm (hw.map Prod.snd)]

/-- Witness for `median_spec`: the scenario series has median 80, and a
reordering of it yields the same median. -/
theorem median_spec_witness :
    (computeStats 90 [((0 : ℤ), (100 : ℚ)), (45, 80), (89, 60)]).priceMedian90d
        = medianOfList ((inWindow 90 [((0 : ℤ), (100 : ℚ)), (45, 80), (89, 60)]).map
            Prod.snd) ∧
    (computeStats 90 [((45 : ℤ), (80 : ℚ)), (0, 100), (89, 60)]).priceMedian90d
        = (computeStats 90 [((0 : ℤ), (100 : ℚ)), (45, 80), (89, 60)]).priceMedian90d :=
  ⟨(median_spec 90 [((0 : ℤ), (100 : ℚ)), (45, 80), (89, 60)] (by decide)).1,
   (median_spec 90 [((0 : ℤ), (100 : ℚ)), (45, 80), (89, 60)] (by decide)).2
     [((45 : ℤ), (80 : ℚ)), (0, 100), (89, 60)] (by decide)⟩

/-! ## Confidence Estimator properties -/

theorem confBase_mono {a b : ℚ} (ha : 0 ≤ a) (hab : a ≤ b) :
    100 * a / (a + confSaturation) ≤ 100 * b / (b + confSaturation) := by
  have h1 : (0 : ℚ) < a + confSaturation := by
    unfold confSaturation; linarith
  have h2 : (0 : ℚ) < b + confSaturation := by
    unfold confSaturation; linarith
  rw [div_le_div_iff₀ h1 h2]
  unfold confSaturation
  nlinarith

/-- C4: the Confidence Estimator is monotonically non-decreasing in the
sample count and non-increasing in staleness (stale ≤ fresh), holding the
other inputs fixed, and equals the floor value whenever the median is
undefined. -/
theorem confidence_monotone :
    (∀ (md : Bool) (stale : Bool) (g : ℚ) (n m : ℕ), n ≤ m →
        confidence md n stale g ≤ confidence md m stale g) ∧
    (∀ (md : Bool) (n : ℕ) (g : ℚ),
        confidence md n true g ≤ confidence md n false g) ∧
    (∀ (n : ℕ) (stale : Bool) (g : ℚ), confidence false n stale g = confFloor) := by
  refine ⟨?_, ?_, ?_⟩
  · intro md stale g n m hnm
    cases md with
    | false => simp [confidence]
    | true =>
      simp only [confidence, if_true]
      apply max_le_max le_rfl
      apply sub_le_sub_right
      exact confBase_mono (by positivity) (by exact_mod_cast hnm)
  · intro md n g
    cases md with
    | false => simp [confidence]
    | true =>
      simp only [confidence, if_true]
      apply max_le_max le_rfl
      apply sub_le_sub_left
      apply add_le_add_right
      unfold stalePenalty
      norm_num
  · intro n stale g
    simp [confidence]

/-- Witness for `confidence_monotone` at concrete inputs: 2 ≤ 5 samples,
staleness at 4 samples, and the floor case. -/
theorem confidence_monotone_witness :
    confidence true 2 false 0 ≤ confidence true 5 false 0 ∧
    confidence true 4 true 0 ≤ confidence true 4 false 0 ∧
    confidence false 7 true 0 = confFloor :=
  ⟨confidence_monotone.1 true false 0 2 5 (by norm_num),
   confidence_monotone.2.1 true 4 0,
   confidence_monotone.2.2 7 true 0⟩

/-! ## Score Composer properties -/

/-- C5: whenever `demandScore` is `null`, the Score Composer's `hotScore`
equals its `score` exactly, so among records without demand data the
hot-score ordering coincides with the deal-score ordering. -/
theorem hotScore_eq_score_of_no_demand :
    ∀ (d st : Option ℚ) (c : ℚ),
      (scoreCompose d st c none).2 = (scoreCompose d st c none).1 ∧
      ∀ (d2 st2 : Option ℚ) (c2 : ℚ),
        ((scoreCompose d st c none).1 ≤ (scoreCompose d2 st2 c2 none).1 ↔
          (scoreCompose d st c none).2 ≤ (scoreCompose d2 st2 c2 none).2) := by
  have h : ∀ (d' st' : Option ℚ) (c' : ℚ),
      (scoreCompose d' st' c' none).2 = (scoreCompose d' st' c' none).1 :=
    fun _ _ _ => rfl
  intro d st c
  exact ⟨h d st c, fun d2 st2 c2 => by rw [h, h]⟩

/-- Witness for `hotScore_eq_score_of_no_demand` at concrete inputs. -/
theorem hotScore_eq_score_witness :
    (scoreCompose (some (1 / 4)) (some (9 / 10)) 80 none).2
        = (scoreCompose (some (1 / 4)) (some (9 / 10)) 80 none).1 ∧
    ((scoreCompose (some (1 / 4)) (some (9 / 10)) 80 none).1
        ≤ (scoreCompose (some (1 / 2)) (some (9 / 10)) 80 none).1 ↔
      (scoreCompose (some (1 / 4)) (some (9 / 10)) 80 none).2
        ≤ (scoreCompose (some (1 / 2)) (some (9 / 10)) 80 none).2) :=
  ⟨(hotScore_eq_score_of_no_demand (some (1 / 4)) (some (9 / 10)) 80).1,
   (hotScore_eq_score_of_no_demand (some (1 / 4)) (some (9 / 10)) 80).2
     (some (1 / 2)) (some (9 / 10)) 80⟩

/-! ## Run script properties -/

/-- C6: `run_all.ps1` sets `PURGE_DEALS_ON_START` to `"1"` for every
invocation that does not pass `-KeepHistory`, and to `"0"` exactly when
`-KeepHistory` is passed. -/
theorem purge_mode_spec :
    ∀ args : RunAllArgs,
      (args.keepHistory = false → purgeDealsOnStart args = "1") ∧
      (args.keepHistory = true → purgeDealsOnStart args = "0") := by
  intro args
  constructor <;> intro h <;> simp [purgeDealsOnStart, h]

/-- Witness for `purge_mode_spec` at both switch values. -/
theorem purge_mode_spec_witness :
    purgeDealsOnStart ⟨false, false⟩ = "1" ∧
    purgeDealsOnStart ⟨true, false⟩ = "0" :=
  ⟨(purge_mode_spec ⟨false, false⟩).1 rfl, (purge_mode_spec ⟨true, false⟩).2 rfl⟩

/-! ## Frontend API properties -/

/-- C7 counterexample: calling `fetchDeals` with the empty string as the
category argument supplies a category, yet no `category` query parameter
is sent (`if (category)` is false for `""` in JavaScript). -/
theorem fetchDeals_empty_category_counterexample :
    (some "" : Option String) ≠ none ∧
    fetchDealsParams (some "") = [("limit", "100"), ("sort", "hot")] :=
  ⟨by simp, rfl⟩

/-- C7 (amended): every `fetchDeals` request carries `limit=100` and a
`sort` parameter that is `"hot"` or `"deal"` (`"hot"` when the sort
argument is omitted), and carries a `category` parameter exactly when a
non-empty category argument is supplied. -/
theorem fetchDeals_params_spec :
    ∀ (cat : Option String) (sort : SortChoice),
      ("limit", "100") ∈ fetchDealsParams cat sort ∧
      ("sort", sortToString sort) ∈ fetchDealsParams cat sort ∧
      (sortToString sort = "hot" ∨ sortToString sort = "deal") ∧
      fetchDealsParams cat = fetchDealsParams cat .hot ∧
      ((∃ c, ("category", c) ∈ fetchDealsParams cat sort) ↔
        ∃ c, cat = some c ∧ c ≠ "") := by
  intro cat sort
  refine ⟨by simp [fetchDealsParams], by simp [fetchDealsParams], ?_, rfl, ?_⟩
  · cases sort
    · exact Or.inl rfl
    · exact Or.inr rfl
  · constructor
    · rintro ⟨c, hc⟩
      cases cat with
      | none =>
        exfalso
        cases sort <;> simp [fetchDealsParams, sortToString] at hc
      | some c0 =>
        by_cases h0 : c0 = ""
        · exfalso
          subst h0
          cases sort <;> simp [fetchDealsParams, sortToString] at hc
        · exact ⟨c0, rfl, h0⟩
    · rintro ⟨c, hcat, hne⟩
      subst hcat
      exact ⟨c, by simp [fetchDealsParams, hne]⟩

/-- Witness for `fetchDeals_params_spec`: the category page's call
`fetchDeals("kitchen")` (default sort). -/
theorem fetchDeals_params_spec_witness :
    ("limit", "100") ∈ fetchDealsParams (some "kitchen") .hot ∧
    ("sort", "hot") ∈ fetchDealsParams (some "kitchen") .hot ∧
    (∃ c, ("category", c) ∈ fetchDealsParams (some "kitchen") .hot) :=
  ⟨(fetchDeals_params_spec (some "kitchen") .hot).1,
   (fetchDeals_params_spec (some "kitchen") .hot).2.1,
   (fetchDeals_params_spec (some "kitchen") .hot).2.2.2.2.mpr
     ⟨"kitchen", rfl, by simp⟩⟩

/-- C8: for every response, `fetchDeal` throws
`Error("Failed to load deal")` on a non-ok status (the 404-equivalent
case) and returns the parsed body only on an ok response. -/
theorem fetchDeal_error_spec :
    ∀ (α : Type) (ok : Bool) (body : α),
      (ok = false →
        fetchDealResult α ok body = Except.error "Failed to load deal") ∧
      (ok = true → fetchDealResult α ok body = Except.ok body) := by
  intro α ok body
  constructor <;> intro h <;> simp [fetchDealResult, h]

/-- Witness for `fetchDeal_error_spec` at a concrete body. -/
theorem fetchDeal_error_spec_witness :
    fetchDealResult ℕ false 7 = Except.error "Failed to load deal" ∧
    fetchDealResult ℕ true 7 = Except.ok 7 :=
  ⟨(fetchDeal_error_spec ℕ false 7).1 rfl, (fetchDeal_error_spec ℕ true 7).2 rfl⟩

/-! ## Null handling in the pages -/

/-- C9 counterexample: the deal detail page renders a `null`
`discount_pct_90d` via `(d.discount_pct_90d ?? 0)`, i.e. exactly as the
value 0 — a null discount is coerced to zero (and likewise the null
prices on the detail and category pages), contradicting the claim that
no consuming stage coerces null to zero. -/
theorem null_coerced_to_zero_counterexample :
    dealPageDropPct none = 0 ∧
    dealPageDropPct none = dealPageDropPct (some 0) ∧
    dealPageNow none = 0 ∧
    categoryPageDropPct none = 0 := by
  refine ⟨?_, rfl, rfl, ?_⟩ <;>
    · show ⌊(0 : ℚ) * 100 + 1 / 2⌋ = 0
      norm_num

/-- C9 (amended): the top page's `pct` formatter handles a `null`
discount explicitly (rendering `"-"`), but the deal detail page and the
category page coerce `null` `priceCurrent`, `priceMedian90d` and
`discountPct90d` to zero via `?? 0` when rendering. -/
theorem null_handling_spec :
    pct none = "-" ∧
    dealPageDropPct none = dealPageDropPct (some 0) ∧
    dealPageNow none = dealPageNow (some 0) ∧
    dealPageMedian none = dealPageMedian (some 0) ∧
    categoryPageNow none = categoryPageNow (some 0) ∧
    categoryPageDropPct none = categoryPageDropPct (some 0) :=
  ⟨rfl, rfl, rfl, rfl, rfl, rfl⟩

/-- C10: the top page resolves any `sort` query value other than the
exact string `"deal"` (including its absence) to the `"hot"` ordering —
requesting `sort=hot` and labelling the page with the hot-score blurb —
and resolves to the deal ordering exactly on `"deal"`. -/
theorem top_page_sort_spec :
    ∀ s : Option String,
      (s ≠ some "deal" →
        pageResolveSort s = .hot ∧
        ("sort", "hot") ∈ fetchDealsParams none (pageResolveSort s) ∧
        sortBlurb (pageResolveSort s)
          = "Sorted by Hot Score (deal quality + demand).") ∧
      (pageResolveSort s = .deal ↔ s = some "deal") := by
  intro s
  have hres : s ≠ some "deal" → pageResolveSort s = .hot := by
    intro h
    simp [pageResolveSort, h]
  constructor
  · intro h
    refine ⟨hres h, ?_, by rw [hres h]; rfl⟩
    rw [hres h]
    simp [fetchDealsParams, sortToString]
  · constructor
    · intro h
      by_contra hne
      rw [hres hne] at h
      exact SortChoice.noConfusion h
    · intro h
      simp [pageResolveSort, h]

/-- Witness for `top_page_sort_spec`: an unrecognized sort value, the
absent value, and the exact `"deal"` value. -/
theorem top_page_sort_spec_witness :
    pageResolveSort (some "price") = .hot ∧
    ("sort", "hot") ∈ fetchDealsParams none (pageResolveSort (some "price")) ∧
    pageResolveSort none = .hot ∧
    pageResolveSort (some "deal") = .deal :=
  ⟨((top_page_sort_spec (some "price")).1 (by simp)).1,
   ((top_page_sort_spec (some "price")).1 (by simp)).2.1,
   ((top_page_sort_spec none).1 (by simp)).1,
   (top_page_sort_spec (some "deal")).2.mpr rfl⟩

end AmazonDeals
